import Mathlib

/-!
Shallow embedding of the gymnax sources under verification:
  * src/gymnax/environments/bsuite/catch.py  (Catch bsuite environment)
  * src/gymnax/environments/spaces.py        (space descriptors)

Machine numbers in the Python source are JAX integer scalars; all the
quantities handled by the claims stay far away from any overflow bound, so
they are embedded as `Int`.  The JAX PRNG (`jax.random.randint`,
`jax.random.split`) is external library code, not part of this repository:
it is abstracted as an explicit function parameter, with its documented
range guarantee (`minval <= draw < maxval`) taken as a hypothesis where a
claim needs it.
-/

namespace Gymnax

/-- Module-level constant `rows = 10` of catch.py. -/
def rows : Int := 10

/-- Module-level constant `columns = 5` of catch.py. -/
def columns : Int := 5

/-- Environment parameter record; catch.py's
`params_catch = {"max_steps_in_episode": 2000}`.  The Catch functions
receive it but never read it. -/
structure Params where
  max_steps_in_episode : Int
deriving Repr, DecidableEq

/-- The default parameter dictionary `params_catch` of catch.py. -/
def params_catch : Params := ⟨2000⟩

/-- The Catch state vector
`[ball_x, ball_y, paddle_x, paddle_y, time, done]` of catch.py: a
6-field integer record, field `i` of the record embedding `state[i]`. -/
structure CatchState where
  ball_x : Int
  ball_y : Int
  paddle_x : Int
  paddle_y : Int
  time : Int
  done : Int
deriving Repr, DecidableEq

/-- Embedding of `jnp.clip(x, lo, hi) = min(max(x, lo), hi)`. -/
def clip (x lo hi : Int) : Int := min (max x lo) hi

/-- Embedding of `sample_init_state(rng_input, params)` of catch.py:
`(ball_x, ball_y, paddle_x, paddle_y)` with
`ball_x = jax.random.randint(rng_input, (), 0, columns)`, `ball_y = 0`,
`paddle_x = columns // 2`, `paddle_y = rows - 1`.  `randint` abstracts
`jax.random.randint` (external library code), `rng` the PRNG key. -/
def sample_init_state (randint : Nat → Int → Int → Int) (rng : Nat)
    (_params : Params) : Int × Int × Int × Int :=
  (randint rng 0 columns, 0, columns / 2, rows - 1)

/-- Embedding of `jax.ops.index_update(board, (i, j), v)` on a grid read as
a function from (row, column) to cell value. -/
def index_update (board : Int → Int → Int) (i j v : Int) : Int → Int → Int :=
  fun r c => if r = i ∧ c = j then v else board r c

/-- Embedding of `get_obs(state, params)` of catch.py: a zero board with
`board[state[1], state[0]] = 1` then `board[state[3], state[2]] = 1`. -/
def get_obs (state : CatchState) (_params : Params) : Int → Int → Int :=
  let board : Int → Int → Int := fun _ _ => 0
  let board := index_update board state.ball_y state.ball_x 1
  let board := index_update board state.paddle_y state.paddle_x 1
  board

/-- Return value of `step`: the Python function returns
`(get_obs(state, params), state, reward, done, info)` with `info = {}`;
the observation is `get_obs` of the `state` field and `info` is empty,
so the record keeps the remaining three components. -/
structure StepOut where
  state : CatchState
  reward : Int
  done : Int
deriving Repr, DecidableEq

/-- Embedding of `step(rng_input, params, state, action)` of catch.py.
Every arithmetic line is transcribed as written: the fresh candidate
initial state is always sampled, each positional field is blended by
`prev_done`, the boolean `done`/`catched` flags become 0/1 integers
(which is exactly how the Python code then uses them arithmetically), and
`time = state[4] + 1` unconditionally. -/
def step (randint : Nat → Int → Int → Int) (rng : Nat) (params : Params)
    (state : CatchState) (action : Int) : StepOut :=
  let init := sample_init_state randint rng params
  let prev_done := state.done
  let dx := action - 1
  let paddle_x :=
    clip (state.paddle_x + dx) 0 (columns - 1) * (1 - prev_done)
      + init.2.2.1 * prev_done
  let ball_y := (state.ball_y + 1) * (1 - prev_done) + init.2.1 * prev_done
  let ball_x := state.ball_x * (1 - prev_done) + init.1 * prev_done
  let paddle_y := state.paddle_y * (1 - prev_done) + init.2.2.2 * prev_done
  let done := if ball_y = paddle_y then (1 : Int) else 0
  let catched := if paddle_x = ball_x then (1 : Int) else 0
  let reward := done * (1 * catched + (-1) * (1 - catched))
  let time := state.time + 1
  { state := ⟨ball_x, ball_y, paddle_x, paddle_y, time, done⟩
    reward := reward
    done := done }

/-- Embedding of `reset(rng_input, params)` of catch.py: the state
component `[ball_x, ball_y, paddle_x, paddle_y, 0, 0]` built from
`sample_init_state`; the Python function returns the pair
`(get_obs(state, params), state)`, the first component being `get_obs`
of this state. -/
def reset (randint : Nat → Int → Int → Int) (rng : Nat)
    (params : Params) : CatchState :=
  let init := sample_init_state randint rng params
  ⟨init.1, init.2.1, init.2.2.1, init.2.2.2, 0, 0⟩

/-- The state invariants named by the spec: `0 <= ball_x < columns`,
`0 <= paddle_x < columns`, `paddle_y = rows - 1`, `ball_y` in
`[0, rows - 1]`, `done` in `{0, 1}`. -/
def Inv (s : CatchState) : Prop :=
  0 ≤ s.ball_x ∧ s.ball_x < columns ∧
  0 ≤ s.paddle_x ∧ s.paddle_x < columns ∧
  s.paddle_y = rows - 1 ∧
  0 ≤ s.ball_y ∧ s.ball_y ≤ rows - 1 ∧
  (s.done = 0 ∨ s.done = 1)

instance (s : CatchState) : Decidable (Inv s) := by
  unfold Inv; infer_instance

/-- The invariants strengthened with the coupling between the done flag
and the ball row that actually holds of reachable states:
`done = 1` exactly when the ball sits on the paddle row. -/
def InvStrong (s : CatchState) : Prop :=
  Inv s ∧ (s.done = 1 ↔ s.ball_y = rows - 1)

instance (s : CatchState) : Decidable (InvStrong s) := by
  unfold InvStrong; infer_instance

/-- Range guarantee of the abstracted `jax.random.randint`:
draws land in `[minval, maxval)` whenever the interval is nonempty. -/
def RandintBounded (randint : Nat → Int → Int → Int) : Prop :=
  ∀ rng lo hi, lo < hi → lo ≤ randint rng lo hi ∧ randint rng lo hi < hi

/-- A concrete sampler satisfying `RandintBounded`, used to instantiate
closed statements: it always returns `minval`. -/
def randintLo : Nat → Int → Int → Int := fun _ lo _ => lo

/-- States reachable from some `reset` under `step` with documented
actions `{0, 1, 2}`, for a fixed sampler and the default parameters. -/
inductive Reachable (randint : Nat → Int → Int → Int) : CatchState → Prop
  | from_reset (rng : Nat) :
      Reachable randint (reset randint rng params_catch)
  | from_step (rng : Nat) (s : CatchState) (a : Int)
      (hs : Reachable randint s) (ha : a = 0 ∨ a = 1 ∨ a = 2) :
      Reachable randint (step randint rng params_catch s a).state

/-- C1: branch-free auto-reset blend.  For every state whose done flag is
in `{0, 1}` and every action, `step` computes each positional field as
`transition_value * (1 - prev_done) + fresh_init_value * prev_done`;
when `prev_done = 1` the new ball column is the one freshly sampled from
the incoming seed, `ball_y = 0`, `paddle_x = columns / 2 = 2`,
`paddle_y = rows - 1 = 9`, regardless of the passed-in positions and the
action; when `prev_done = 0`, `paddle_x` moves by `action - 1` clipped to
`[0, 4]`, `ball_y` increments, and `ball_x` carries over. -/
theorem step_autoreset_blend (randint : Nat → Int → Int → Int) (rng : Nat)
    (p : Params) (s : CatchState) (a : Int)
    (h : s.done = 0 ∨ s.done = 1) :
    ((step randint rng p s a).state.ball_x
        = s.ball_x * (1 - s.done) + (sample_init_state randint rng p).1 * s.done ∧
     (step randint rng p s a).state.ball_y
        = (s.ball_y + 1) * (1 - s.done) + (sample_init_state randint rng p).2.1 * s.done ∧
     (step randint rng p s a).state.paddle_x
        = clip (s.paddle_x + (a - 1)) 0 (columns - 1) * (1 - s.done)
            + (sample_init_state randint rng p).2.2.1 * s.done ∧
     (step randint rng p s a).state.paddle_y
        = s.paddle_y * (1 - s.done) + (sample_init_state randint rng p).2.2.2 * s.done) ∧
    (s.done = 1 →
      (step randint rng p s a).state.ball_x = randint rng 0 columns ∧
      (step randint rng p s a).state.ball_y = 0 ∧
      (step randint rng p s a).state.paddle_x = 2 ∧
      (step randint rng p s a).state.paddle_y = 9) ∧
    (s.done = 0 →
      (step randint rng p s a).state.paddle_x
          = clip (s.paddle_x + (a - 1)) 0 (columns - 1) ∧
      (step randint rng p s a).state.ball_y = s.ball_y + 1 ∧
      (step randint rng p s a).state.ball_x = s.ball_x) := by
  refine ⟨⟨rfl, rfl, rfl, rfl⟩, ?_, ?_⟩ <;> intro hd <;>
    simp [step, sample_init_state, hd, columns, rows]

/-- C1 witness: the theorem applied to a concrete terminal state (done
flag 1) with the always-minimal sampler at seed 0 and action 2. -/
theorem step_autoreset_blend_witness :
    ((⟨1, 3, 4, 9, 7, 1⟩ : CatchState).done = 0 ∨
     (⟨1, 3, 4, 9, 7, 1⟩ : CatchState).done = 1) ∧
    (((step randintLo 0 params_catch ⟨1, 3, 4, 9, 7, 1⟩ 2).state.ball_x
        = (1 : Int) * (1 - 1) + (sample_init_state randintLo 0 params_catch).1 * 1 ∧
      (step randintLo 0 params_catch ⟨1, 3, 4, 9, 7, 1⟩ 2).state.ball_y
        = ((3 : Int) + 1) * (1 - 1) + (sample_init_state randintLo 0 params_catch).2.1 * 1 ∧
      (step randintLo 0 params_catch ⟨1, 3, 4, 9, 7, 1⟩ 2).state.paddle_x
        = clip ((4 : Int) + (2 - 1)) 0 (columns - 1) * (1 - 1)
            + (sample_init_state randintLo 0 params_catch).2.2.1 * 1 ∧
      (step randintLo 0 params_catch ⟨1, 3, 4, 9, 7, 1⟩ 2).state.paddle_y
        = (9 : Int) * (1 - 1) + (sample_init_state randintLo 0 params_catch).2.2.2 * 1) ∧
     ((1 : Int) = 1 →
      (step randintLo 0 params_catch ⟨1, 3, 4, 9, 7, 1⟩ 2).state.ball_x = randintLo 0 0 columns ∧
      (step randintLo 0 params_catch ⟨1, 3, 4, 9, 7, 1⟩ 2).state.ball_y = 0 ∧
      (step randintLo 0 params_catch ⟨1, 3, 4, 9, 7, 1⟩ 2).state.paddle_x = 2 ∧
      (step randintLo 0 params_catch ⟨1, 3, 4, 9, 7, 1⟩ 2).state.paddle_y = 9) ∧
     ((1 : Int) = 0 →
      (step randintLo 0 params_catch ⟨1, 3, 4, 9, 7, 1⟩ 2).state.paddle_x
          = clip ((4 : Int) + (2 - 1)) 0 (columns - 1) ∧
      (step randintLo 0 params_catch ⟨1, 3, 4, 9, 7, 1⟩ 2).state.ball_y = (3 : Int) + 1 ∧
      (step randintLo 0 params_catch ⟨1, 3, 4, 9, 7, 1⟩ 2).state.ball_x = 1)) :=
  ⟨Or.inr rfl,
   step_autoreset_blend randintLo 0 params_catch ⟨1, 3, 4, 9, 7, 1⟩ 2 (Or.inr rfl)⟩

/-- C2: reward law.  For every state satisfying the invariants and every
action: a nonzero reward forces the returned done flag to be 1; reward 1
holds exactly when the episode ends with paddle and ball aligned; reward
-1 exactly when it ends misaligned; when the episode does not end the
reward is 0; and the reward always lies in `{-1, 0, 1}`. -/
theorem step_reward_law (randint : Nat → Int → Int → Int) (rng : Nat)
    (p : Params) (s : CatchState) (a : Int) (h : Inv s) :
    ((step randint rng p s a).reward ≠ 0 → (step randint rng p s a).done = 1) ∧
    ((step randint rng p s a).reward = 1 ↔
      (step randint rng p s a).done = 1 ∧
      (step randint rng p s a).state.paddle_x = (step randint rng p s a).state.ball_x) ∧
    ((step randint rng p s a).reward = -1 ↔
      (step randint rng p s a).done = 1 ∧
      (step randint rng p s a).state.paddle_x ≠ (step randint rng p s a).state.ball_x) ∧
    ((step randint rng p s a).done ≠ 1 → (step randint rng p s a).reward = 0) ∧
    ((step randint rng p s a).reward = -1 ∨ (step randint rng p s a).reward = 0 ∨
      (step randint rng p s a).reward = 1) := by
  simp only [step]
  split_ifs <;> simp_all

/-- C2 witness: the theorem applied to the state one row above the paddle
row with ball and paddle aligned, so the step terminates with reward 1. -/
theorem step_reward_law_witness :
    Inv ⟨2, 8, 2, 9, 11, 0⟩ ∧
    (((step randintLo 0 params_catch ⟨2, 8, 2, 9, 11, 0⟩ 1).reward ≠ 0 →
        (step randintLo 0 params_catch ⟨2, 8, 2, 9, 11, 0⟩ 1).done = 1) ∧
     ((step randintLo 0 params_catch ⟨2, 8, 2, 9, 11, 0⟩ 1).reward = 1 ↔
        (step randintLo 0 params_catch ⟨2, 8, 2, 9, 11, 0⟩ 1).done = 1 ∧
        (step randintLo 0 params_catch ⟨2, 8, 2, 9, 11, 0⟩ 1).state.paddle_x
          = (step randintLo 0 params_catch ⟨2, 8, 2, 9, 11, 0⟩ 1).state.ball_x) ∧
     ((step randintLo 0 params_catch ⟨2, 8, 2, 9, 11, 0⟩ 1).reward = -1 ↔
        (step randintLo 0 params_catch ⟨2, 8, 2, 9, 11, 0⟩ 1).done = 1 ∧
        (step randintLo 0 params_catch ⟨2, 8, 2, 9, 11, 0⟩ 1).state.paddle_x
          ≠ (step randintLo 0 params_catch ⟨2, 8, 2, 9, 11, 0⟩ 1).state.ball_x) ∧
     ((step randintLo 0 params_catch ⟨2, 8, 2, 9, 11, 0⟩ 1).done ≠ 1 →
        (step randintLo 0 params_catch ⟨2, 8, 2, 9, 11, 0⟩ 1).reward = 0) ∧
     ((step randintLo 0 params_catch ⟨2, 8, 2, 9, 11, 0⟩ 1).reward = -1 ∨
      (step randintLo 0 params_catch ⟨2, 8, 2, 9, 11, 0⟩ 1).reward = 0 ∨
      (step randintLo 0 params_catch ⟨2, 8, 2, 9, 11, 0⟩ 1).reward = 1)) :=
  ⟨by decide, step_reward_law randintLo 0 params_catch ⟨2, 8, 2, 9, 11, 0⟩ 1 (by decide)⟩

/-- C3: termination condition.  For every state satisfying the invariants
(in particular `paddle_y = 9` and a 0/1 done flag) and every action, the
done value returned by `step` is 1 exactly when the new ball row is the
paddle row `rows - 1 = 9`, irrespective of horizontal alignment. -/
theorem step_done_iff_ball_row (randint : Nat → Int → Int → Int) (rng : Nat)
    (p : Params) (s : CatchState) (a : Int) (h : Inv s) :
    ((step randint rng p s a).done = 1 ↔
      (step randint rng p s a).state.ball_y = rows - 1) := by
  obtain ⟨-, -, -, -, hpy, -, -, hd⟩ := h
  rcases hd with hd | hd <;>
    simp [step, sample_init_state, hd, hpy, rows, columns]

/-- C3 witness: the theorem applied to a mid-flight state whose step does
not reach the paddle row, discharging the invariant hypothesis there. -/
theorem step_done_iff_ball_row_witness :
    Inv ⟨3, 4, 0, 9, 2, 0⟩ ∧
    ((step randintLo 5 params_catch ⟨3, 4, 0, 9, 2, 0⟩ 0).done = 1 ↔
      (step randintLo 5 params_catch ⟨3, 4, 0, 9, 2, 0⟩ 0).state.ball_y = rows - 1) :=
  ⟨by decide, step_done_iff_ball_row randintLo 5 params_catch ⟨3, 4, 0, 9, 2, 0⟩ 0 (by decide)⟩

/-- C5: time is never reset by `step`.  For every input state and action
the new time field is the old one plus 1 — including when the incoming
done flag is 1 and the call performs the implicit auto-reset — while an
explicit `reset` call sets time to 0. -/
theorem step_time_increments (randint : Nat → Int → Int → Int)
    (rng rng2 : Nat) (p : Params) (s : CatchState) (a : Int) :
    (step randint rng p s a).state.time = s.time + 1 ∧
    (reset randint rng2 p).time = 0 :=
  ⟨rfl, rfl⟩

/-- C10: out-of-range actions cannot break the paddle bound.  For every
state with `0 ≤ paddle_x < 5` and done flag 0, and every integer action
whatsoever, the new paddle column stays in `[0, columns - 1]`, because
the paddle update is clipped before blending. -/
theorem step_paddle_x_clipped (randint : Nat → Int → Int → Int) (rng : Nat)
    (p : Params) (s : CatchState) (a : Int)
    (h0 : 0 ≤ s.paddle_x) (h1 : s.paddle_x < columns) (hd : s.done = 0) :
    0 ≤ (step randint rng p s a).state.paddle_x ∧
    (step randint rng p s a).state.paddle_x ≤ columns - 1 := by
  simp only [step, hd, clip, columns]
  constructor <;> simp

/-- C10 witness: the theorem applied to a wildly out-of-range action
(1000) from an in-bounds running state. -/
theorem step_paddle_x_clipped_witness :
    0 ≤ (⟨0, 2, 4, 9, 3, 0⟩ : CatchState).paddle_x ∧
    (⟨0, 2, 4, 9, 3, 0⟩ : CatchState).paddle_x < columns ∧
    (⟨0, 2, 4, 9, 3, 0⟩ : CatchState).done = 0 ∧
    (0 ≤ (step randintLo 7 params_catch ⟨0, 2, 4, 9, 3, 0⟩ 1000).state.paddle_x ∧
     (step randintLo 7 params_catch ⟨0, 2, 4, 9, 3, 0⟩ 1000).state.paddle_x ≤ columns - 1) :=
  ⟨by decide, by decide, by decide,
   step_paddle_x_clipped randintLo 7 params_catch ⟨0, 2, 4, 9, 3, 0⟩ 1000
     (by decide) (by decide) (by decide)⟩

/-- Preservation lemma: `step` with a documented-range action keeps the
strengthened invariant, for any sampler respecting the `randint` range. -/
theorem step_preserves_InvStrong (randint : Nat → Int → Int → Int)
    (hr : RandintBounded randint) (rng : Nat) (p : Params) (s : CatchState)
    (a : Int) (h : InvStrong s) :
    InvStrong (step randint rng p s a).state := by
  obtain ⟨⟨hbx0, hbx1, hpx0, hpx1, hpy, hby0, hby1, hd⟩, hc⟩ := h
  obtain ⟨h1, h2⟩ := hr rng 0 columns (by decide)
  rcases hd with hd | hd <;>
    simp only [InvStrong, Inv, step, sample_init_state, clip, hd, hpy,
      columns, rows] at * <;>
    split_ifs <;> simp_all <;> omega

/-- Establishment lemma: `reset` produces a state satisfying the
strengthened invariant, for any sampler respecting the `randint` range. -/
theorem reset_establishes_InvStrong (randint : Nat → Int → Int → Int)
    (hr : RandintBounded randint) (rng : Nat) (p : Params) :
    InvStrong (reset randint rng p) := by
  obtain ⟨h1, h2⟩ := hr rng 0 columns (by decide)
  refine ⟨⟨h1, h2, ?_, ?_, ?_, ?_, ?_, ?_⟩, ?_⟩ <;>
    norm_num [reset, sample_init_state, columns, rows]

/-- C4 counterexample: the claim's invariant list is not closed under
`step`.  The state `[0, 9, 0, 9, 0, 0]` (ball already on the paddle row
but done flag 0) satisfies every listed invariant, the action 1 is in
`{0, 1, 2}`, yet the successor state violates `ball_y ≤ 9`: its new ball
row is 10. -/
theorem inv_not_inductive_counterexample :
    Inv ⟨0, 9, 0, 9, 0, 0⟩ ∧ ((1 : Int) = 0 ∨ (1 : Int) = 1 ∨ (1 : Int) = 2) ∧
    (step randintLo 0 params_catch ⟨0, 9, 0, 9, 0, 0⟩ 1).state.ball_y = 10 ∧
    ¬ Inv (step randintLo 0 params_catch ⟨0, 9, 0, 9, 0, 0⟩ 1).state := by
  decide

/-- C4 amended: with the invariant strengthened by the coupling
`done = 1` iff `ball_y = rows - 1`, every state reachable from `reset`
under `step` with actions in `{0, 1, 2}` satisfies the strengthened
invariant — in particular all the originally listed predicates — for any
sampler respecting the `randint` range guarantee. -/
theorem reachable_states_invariant (randint : Nat → Int → Int → Int)
    (hr : RandintBounded randint) (s : CatchState)
    (hs : Reachable randint s) : InvStrong s := by
  induction hs with
  | from_reset rng => exact reset_establishes_InvStrong randint hr rng _
  | from_step rng s a hs ha ih =>
      exact step_preserves_InvStrong randint hr rng _ s a ih

/-- C4 witness: the amended theorem applied to the always-minimal sampler
(which respects the range guarantee) and the state reached by one reset
at seed 0. -/
theorem reachable_states_invariant_witness :
    RandintBounded randintLo ∧ InvStrong (reset randintLo 0 params_catch) :=
  ⟨fun _ _ _ h => ⟨le_refl _, h⟩,
   reachable_states_invariant randintLo (fun _ _ _ h => ⟨le_refl _, h⟩) _
     (Reachable.from_reset 0)⟩

/-- The cells of the rows × columns board whose `get_obs` value is 1. -/
def set_cells (s : CatchState) (p : Params) : Finset (Int × Int) :=
  ((Finset.Icc 0 (rows - 1)) ×ˢ (Finset.Icc 0 (columns - 1))).filter
    (fun q => get_obs s p q.1 q.2 = 1)

/-- C9 counterexample: when ball and paddle coincide (a terminal caught
state, allowed by the invariants), the observation has exactly one set
cell, not two.  The state `[2, 9, 2, 9, 5, 1]` satisfies the invariants
and its board holds a single 1. -/
theorem get_obs_two_cells_counterexample :
    Inv ⟨2, 9, 2, 9, 5, 1⟩ ∧
    (set_cells ⟨2, 9, 2, 9, 5, 1⟩ params_catch).card = 1 := by
  decide

/-- C9 amended: for every state satisfying the invariants whose ball and
paddle cells are distinct, the board holds value 1 at `(ball_y, ball_x)`
and `(paddle_y, paddle_x)`, value 0 at every other cell, and its set of
set cells is exactly that two-element set, of cardinality 2. -/
theorem get_obs_two_cells (s : CatchState) (p : Params) (h : Inv s)
    (hne : (s.ball_y, s.ball_x) ≠ (s.paddle_y, s.paddle_x)) :
    get_obs s p s.ball_y s.ball_x = 1 ∧
    get_obs s p s.paddle_y s.paddle_x = 1 ∧
    (∀ r c : Int, (r, c) ≠ (s.ball_y, s.ball_x) →
      (r, c) ≠ (s.paddle_y, s.paddle_x) → get_obs s p r c = 0) ∧
    set_cells s p = {(s.ball_y, s.ball_x), (s.paddle_y, s.paddle_x)} ∧
    (set_cells s p).card = 2 := by
  obtain ⟨hbx0, hbx1, hpx0, hpx1, hpy, hby0, hby1, hd⟩ := h
  have hball : get_obs s p s.ball_y s.ball_x = 1 := by
    simp only [get_obs, index_update]
    split_ifs <;> simp_all
  have hpad : get_obs s p s.paddle_y s.paddle_x = 1 := by
    simp only [get_obs, index_update]
    simp
  have hzero : ∀ r c : Int, (r, c) ≠ (s.ball_y, s.ball_x) →
      (r, c) ≠ (s.paddle_y, s.paddle_x) → get_obs s p r c = 0 := by
    intro r c hrb hrp
    simp only [get_obs, index_update]
    rw [if_neg, if_neg]
    · intro hx
      exact hrb (by rw [hx.1, hx.2])
    · intro hx
      exact hrp (by rw [hx.1, hx.2])
  have hset : set_cells s p = {(s.ball_y, s.ball_x), (s.paddle_y, s.paddle_x)} := by
    ext q
    obtain ⟨r, c⟩ := q
    simp only [set_cells, Finset.mem_filter, Finset.mem_product,
      Finset.mem_Icc, Finset.mem_insert, Finset.mem_singleton,
      Prod.mk.injEq, get_obs, index_update]
    constructor
    · rintro ⟨-, hval⟩
      by_cases hb : r = s.ball_y ∧ c = s.ball_x
      · exact Or.inl ⟨hb.1, hb.2⟩
      · by_cases hq : r = s.paddle_y ∧ c = s.paddle_x
        · exact Or.inr ⟨hq.1, hq.2⟩
        · rw [if_neg hq, if_neg hb] at hval
          exact absurd hval (by decide)
    · rintro (⟨hr1, hc1⟩ | ⟨hr1, hc1⟩) <;> subst hr1 <;> subst hc1
      · refine ⟨⟨⟨hby0, ?_⟩, hbx0, ?_⟩, ?_⟩
        · exact hby1
        · omega
        · have := hball
          simpa only [get_obs, index_update] using this
      · refine ⟨⟨⟨?_, ?_⟩, hpx0, ?_⟩, ?_⟩
        · omega
        · omega
        · omega
        · simp
  refine ⟨hball, hpad, hzero, hset, ?_⟩
  rw [hset, Finset.card_insert_of_not_mem, Finset.card_singleton]
  simpa using hne

/-- C9 witness: the amended theorem applied to a running state with the
ball at row 0 and the paddle at row 9, discharging invariants and
distinctness there. -/
theorem get_obs_two_cells_witness :
    Inv ⟨3, 0, 2, 9, 0, 0⟩ ∧
    (((0 : Int), (3 : Int)) ≠ ((9 : Int), (2 : Int)) ∧
      get_obs ⟨3, 0, 2, 9, 0, 0⟩ params_catch 0 3 = 1 ∧
      get_obs ⟨3, 0, 2, 9, 0, 0⟩ params_catch 9 2 = 1 ∧
      (set_cells ⟨3, 0, 2, 9, 0, 0⟩ params_catch).card = 2) := by
  refine ⟨by decide, by decide, ?_, ?_, ?_⟩
  · exact (get_obs_two_cells ⟨3, 0, 2, 9, 0, 0⟩ params_catch (by decide) (by decide)).1
  · exact (get_obs_two_cells ⟨3, 0, 2, 9, 0, 0⟩ params_catch (by decide) (by decide)).2.1
  · exact (get_obs_two_cells ⟨3, 0, 2, 9, 0, 0⟩ params_catch (by decide) (by decide)).2.2.2.2

/-- Embedding of `Discrete.sample` of spaces.py:
`jax.random.randint(rng, shape=(), minval=0, maxval=num_categories - 1)`,
with `randint` abstracting the library sampler as above. -/
def Discrete.sample (randint : Nat → Int → Int → Int)
    (num_categories : Int) (rng : Nat) : Int :=
  randint rng 0 (num_categories - 1)

/-- Embedding of `Discrete.contains` of spaces.py on an integer scalar:
`jnp.logical_and(x >= 0, x < num_categories)`. -/
def Discrete.contains (num_categories : Int) (x : Int) : Bool :=
  decide (0 ≤ x) && decide (x < num_categories)

/-- C6: discrete sampling upper bound (off by one).  For every
`num_categories = n ≥ 2` and any sampler meeting the `randint` range
guarantee, `Discrete.sample` lands in `[0, n - 2]` — the top category
`n - 1` is never drawn — even though `Discrete.contains` accepts every
integer in `[0, n - 1]`. -/
theorem discrete_sample_off_by_one (randint : Nat → Int → Int → Int)
    (hr : RandintBounded randint) (n : Int) (hn : 2 ≤ n) (rng : Nat) :
    0 ≤ Discrete.sample randint n rng ∧
    Discrete.sample randint n rng ≤ n - 2 ∧
    (∀ x : Int, Discrete.contains n x = true ↔ 0 ≤ x ∧ x < n) := by
  obtain ⟨h1, h2⟩ := hr rng 0 (n - 1) (by omega)
  refine ⟨h1, ?_, ?_⟩
  · show randint rng 0 (n - 1) ≤ n - 2
    omega
  · intro x
    simp [Discrete.contains]

/-- C6 witness: the theorem applied to the always-minimal sampler with
three categories at seed 0. -/
theorem discrete_sample_off_by_one_witness :
    RandintBounded randintLo ∧ (2 : Int) ≤ 3 ∧
    (0 ≤ Discrete.sample randintLo 3 0 ∧
     Discrete.sample randintLo 3 0 ≤ 3 - 2 ∧
     (∀ x : Int, Discrete.contains 3 x = true ↔ 0 ≤ x ∧ x < 3)) :=
  ⟨fun _ _ _ h => ⟨le_refl _, h⟩, by norm_num,
   discrete_sample_off_by_one randintLo (fun _ _ _ h => ⟨le_refl _, h⟩) 3
     (by norm_num) 0⟩

/-- A dynamically-typed Python value as the space classes handle it:
an integer scalar or a tuple of values. -/
inductive PyVal where
  | int (i : Int)
  | tuple (vs : List PyVal)

/-- A space object as the composite spaces use it dynamically: its
`sample` and `contains` methods.  A method returns `none` exactly where
the corresponding Python call raises (e.g. a TypeError). -/
structure PySpace where
  sample : Nat → Option PyVal
  contains : PyVal → Option Bool

/-- The `Discrete` space as a dynamic space object.  On an integer,
`contains` is the range check of spaces.py; on a tuple, the Python
comparison `x >= 0` between a tuple and an integer raises TypeError,
embedded as `none`. -/
def discreteSpace (randint : Nat → Int → Int → Int)
    (num_categories : Int) : PySpace :=
  { sample := fun rng => some (.int (Discrete.sample randint num_categories rng))
    contains := fun x =>
      match x with
      | .int i => some (Discrete.contains num_categories i)
      | .tuple _ => none }

/-- Embedding of `Tuple.contains` of spaces.py, exactly as written: the
loop `for space in self.spaces: out_of_space += 1 - space.contains(x)`
passes the WHOLE value `x` to every subspace — not its i-th component —
and the method returns `out_of_space == 0`.  A raising subspace call
propagates as `none`. -/
def Tuple.contains (spaces : List PySpace) (x : PyVal) : Option Bool := do
  let vals ← spaces.mapM (fun sp => sp.contains x)
  pure (decide ((vals.map (fun b => 1 - (if b then (1 : Int) else 0))).sum = 0))

/-- Componentwise containment, the second definition following the
spec's words for the product space (and mirroring what `Dict.contains`
of spaces.py does per entry with `x[k]`): on a structurally matching
tuple, the i-th subspace checks the i-th component; the violations are
counted and the result is their count being zero. -/
def Tuple.contains_componentwise (spaces : List PySpace) (x : PyVal) :
    Option Bool :=
  match x with
  | .tuple vs =>
      if vs.length = spaces.length then do
        let bs ← (spaces.zip vs).mapM (fun q => q.1.contains q.2)
        pure (decide ((bs.map (fun b => 1 - (if b then (1 : Int) else 0))).sum = 0))
      else none
  | .int _ => none

/-- C7: `Tuple.contains` does not check components against their own
subspaces.  On the product of Discrete(2) and Discrete(3) with the
structurally matching value `(1, 2)`, componentwise containment — what
the claim states — is true, but the code passes the whole tuple to each
subspace, whose comparison with an integer raises TypeError (`none`). -/
theorem tuple_contains_whole_value :
    Tuple.contains_componentwise
        [discreteSpace randintLo 2, discreteSpace randintLo 3]
        (.tuple [.int 1, .int 2]) = some true ∧
    Tuple.contains [discreteSpace randintLo 2, discreteSpace randintLo 3]
        (.tuple [.int 1, .int 2]) = none := by
  constructor <;> rfl

/-- A Python subscript as it occurs dynamically in `Tuple.sample` of
spaces.py: an integer index, or a space object (the iteration variable
`k` bound by `enumerate(self.spaces)` over a list of spaces). -/
inductive PySubscript where
  | int (i : Int)
  | space (s : PySpace)

/-- Python list subscription `l[k]`: an integer index (with negative
wrap-around) selects an element; any non-integer subscript — here a
space object — raises TypeError, embedded as `none`. -/
def listSubscript (l : List PySpace) (k : PySubscript) : Option PySpace :=
  match k with
  | .int i =>
      let j := if i < 0 then i + l.length else i
      if h : 0 ≤ j ∧ j.toNat < l.length then some (l.get ⟨j.toNat, h.2⟩)
      else none
  | .space _ => none

/-- A concrete stand-in for `jax.random.split`, returning `n` distinct
sub-seeds of `rng`. -/
def splitSeq : Nat → Nat → List Nat :=
  fun rng n => (List.range n).map (fun i => rng + i)

/-- Embedding of `Tuple.sample` of spaces.py, exactly as written:
`key_split = split(rng, num_spaces)` followed by the comprehension
`[self.spaces[k].sample(key_split[i]) for i, k in enumerate(self.spaces)]`
— the list is subscripted with the space object `k` itself.  `split`
abstracts `jax.random.split`; `key_split[i]` is always in range since
`split` returns one key per space. -/
def Tuple.sample (split : Nat → Nat → List Nat) (spaces : List PySpace)
    (rng : Nat) : Option (List PyVal) :=
  let key_split := split rng spaces.length
  spaces.enum.mapM (fun q => do
    let sp ← listSubscript spaces (.space q.2)
    sp.sample (key_split.getD q.1 0))

/-- Order-preserving per-entry delegation, the second definition
following the spec's words for product-space sampling (and mirroring
what `Dict.sample` of spaces.py does per entry): entry `i` samples with
sub-seed `i`. -/
def Tuple.sample_delegating (split : Nat → Nat → List Nat)
    (spaces : List PySpace) (rng : Nat) : Option (List PyVal) :=
  let key_split := split rng spaces.length
  spaces.enum.mapM (fun q => q.2.sample (key_split.getD q.1 0))

/-- C8: `Tuple.sample` subscripts the space list with the space object
bound by `enumerate` instead of the integer index, so it raises a
TypeError on every nonempty product space; per-entry delegation on the
same spaces succeeds.  Shown on Discrete(2) x Discrete(3) at seed 0. -/
theorem tuple_sample_subscript_type_error :
    Tuple.sample splitSeq
        [discreteSpace randintLo 2, discreteSpace randintLo 3] 0 = none ∧
    Tuple.sample_delegating splitSeq
        [discreteSpace randintLo 2, discreteSpace randintLo 3] 0
      = some [.int 0, .int 0] := by
  constructor <;> rfl

end Gymnax
